import Mathlib

/-!
Verification of the Discussion subsystem (`src/discussion/` of
foundery-os-core): data model, staged state machine with quality gates,
append-only comment ledger, contributor invitations, and the verification
hash.  The Rust module is shallowly embedded: `BTreeMap`s become
association lists (first-occurrence lookup), `BTreeSet`s become
duplicate-free lists built by insert-if-absent, Rust `String`s become
lists of Unicode code points (so that both `len()` in UTF-8 bytes and
`chars().count()` are expressible), `u64` becomes `Nat`, and every
fallible operation returns `Except String α` paired with the resulting
store state.
-/

set_option maxHeartbeats 1600000
set_option maxRecDepth 8000

namespace FounderyDiscussion

/-! ## Map and set primitives (BTreeMap / BTreeSet counterparts) -/

/-- Lookup of the first binding of key `k` (BTreeMap::get). -/
def mapGet {α β : Type} [DecidableEq α] : List (α × β) → α → Option β
  | [], _ => none
  | (k0, v) :: rest, k => if k0 = k then some v else mapGet rest k

/-- Insert or replace the binding of key `k` (BTreeMap::insert). -/
def mapInsert {α β : Type} [DecidableEq α] : List (α × β) → α → β → List (α × β)
  | [], k, v => [(k, v)]
  | (k0, v0) :: rest, k, v =>
      if k0 = k then (k0, v) :: rest else (k0, v0) :: mapInsert rest k v

/-- Modify the binding of key `k` in place when present (BTreeMap::get_mut). -/
def mapUpdate {α β : Type} [DecidableEq α] : List (α × β) → α → (β → β) → List (α × β)
  | [], _, _ => []
  | (k0, v0) :: rest, k, f =>
      if k0 = k then (k0, f v0) :: rest else (k0, v0) :: mapUpdate rest k f

/-- Insert-if-absent into a set represented as a list (BTreeSet::insert). -/
def setInsert {α : Type} [DecidableEq α] (x : α) (s : List α) : List α :=
  if x ∈ s then s else x :: s

/-! ## Rust string and principal model -/

/-- A Rust `String`, as its list of Unicode code points. -/
abbrev RString := List Nat

/-- A `candid::Principal`, as its raw byte slice. -/
abbrev Principal := List Nat

/-- UTF-8 encoding of one code point. -/
def utf8EncodeChar (c : Nat) : List Nat :=
  if c < 128 then [c]
  else if c < 2048 then [192 + c / 64, 128 + c % 64]
  else if c < 65536 then [224 + c / 4096, 128 + (c / 64) % 64, 128 + c % 64]
  else [240 + c / 262144, 128 + (c / 4096) % 64, 128 + (c / 64) % 64, 128 + c % 64]

/-- `str::as_bytes` : the UTF-8 byte sequence of a string. -/
def strBytes (s : RString) : List Nat := s.flatMap utf8EncodeChar

/-- `String::len` : length in UTF-8 bytes. -/
def strByteLen (s : RString) : Nat := (strBytes s).length

/-- `str::chars().count()` : length in characters. -/
def strCharCount (s : RString) : Nat := s.length

/-- Bytes of an ASCII string literal (for `format!("{:?}", ..)` tags). -/
def asciiBytes (s : String) : List Nat := s.toList.map Char.toNat

/-- `u64::to_le_bytes`. -/
def u64LeBytes (n : Nat) : List Nat :=
  [n % 256, n / 256 % 256, n / 65536 % 256, n / 16777216 % 256,
   n / 4294967296 % 256, n / 1099511627776 % 256,
   n / 281474976710656 % 256, n / 72057594037927936 % 256]

/-! ## Types (`src/discussion/types.rs`) -/

abbrev DiscussionId := Nat
abbrev CommentId := Nat

/-- Governance proposal categories. -/
inductive ProposalCategory : Type
  | Constitutional
  | Operational
  | Treasury
  | SoftwareDevelopment
deriving DecidableEq, Repr

/-- Discussion stage lifecycle. -/
inductive DiscussionStage : Type
  | Brainstorm
  | Refining
  | Ready
deriving DecidableEq, Repr

/-- `format!("{:?}", stage)`. -/
def stageDebug : DiscussionStage → String
  | .Brainstorm => "Brainstorm"
  | .Refining => "Refining"
  | .Ready => "Ready"

/-- `format!("{:?}", category)`. -/
def categoryDebug : ProposalCategory → String
  | .Constitutional => "Constitutional"
  | .Operational => "Operational"
  | .Treasury => "Treasury"
  | .SoftwareDevelopment => "SoftwareDevelopment"

/-- Human- or agent-authored comment tag. -/
inductive AuthorType : Type
  | Human
  | Agent (agent_id : RString)
deriving DecidableEq, Repr

/-- Governance discussion thread. -/
structure Discussion : Type where
  id : DiscussionId
  title : RString
  description : RString
  category : ProposalCategory
  proposer : Principal
  contributors : List Principal
  stage : DiscussionStage
  created_at : Nat
  stage_changed_at : Nat
  comment_count : Nat
  participant_count : Nat
  is_archived : Bool
deriving DecidableEq, Repr

/-- Comment on a discussion thread. -/
structure Comment : Type where
  id : CommentId
  discussion_id : DiscussionId
  author : Principal
  content : RString
  author_type : AuthorType
  created_at : Nat
  is_retracted : Bool
  retracted_at : Option Nat
deriving DecidableEq, Repr

/-- Invite status. -/
inductive InviteStatus : Type
  | Pending
  | Accepted
  | Declined
deriving DecidableEq, Repr

/-- Contributor invitation record. -/
structure ContributorInvite : Type where
  discussion_id : DiscussionId
  invitee : Principal
  invited_by : Principal
  invited_at : Nat
  status : InviteStatus
deriving DecidableEq, Repr

/-- Quality gate status report. -/
structure QualityGateStatus : Type where
  participants_met : Bool
  participants_count : Nat
  comments_met : Bool
  substantive_comments : Nat
  duration_met : Bool
  hours_in_refining : Nat
  all_met : Bool
deriving DecidableEq, Repr

/-- Arguments for creating a discussion. -/
structure CreateDiscussionArgs : Type where
  title : RString
  description : RString
  category : ProposalCategory
deriving DecidableEq, Repr

/-- Arguments for adding a comment. -/
structure AddCommentArgs : Type where
  discussion_id : DiscussionId
  content : RString
  author_type : AuthorType
deriving DecidableEq, Repr

/-! ## Constants (`src/discussion/types.rs`) -/

def MIN_PARTICIPANTS : Nat := 3
def MIN_SUBSTANTIVE_COMMENTS : Nat := 5
def MIN_REFINING_DURATION_NS : Nat := 48 * 60 * 60 * 1000000000
def SUBSTANTIVE_COMMENT_MIN_CHARS : Nat := 50
def MAX_TITLE_LEN : Nat := 200
def MAX_COMMENT_LEN : Nat := 10 * 1024
def MAX_DESCRIPTION_LEN : Nat := 50 * 1024
def NS_PER_HOUR : Nat := 60 * 60 * 1000000000

/-! ## Store state (`src/discussion/state.rs`) -/

/-- The Discussion module's store tables. -/
structure DiscussionState : Type where
  discussions : List (DiscussionId × Discussion)
  comments : List (CommentId × Comment)
  discussion_comments : List (DiscussionId × List CommentId)
  invites : List ((DiscussionId × Principal) × ContributorInvite)
  discussion_participants : List (DiscussionId × List Principal)
  user_discussions : List (Principal × List DiscussionId)
  next_discussion_id : DiscussionId
  next_comment_id : CommentId
deriving DecidableEq, Repr

/-- `DiscussionState::new()`. -/
def DiscussionState.new : DiscussionState :=
  { discussions := [], comments := [], discussion_comments := [], invites := [],
    discussion_participants := [], user_discussions := [],
    next_discussion_id := 1, next_comment_id := 1 }

/-- `is_proposer_or_contributor`. -/
def is_proposer_or_contributor (s : DiscussionState) (discussion_id : DiscussionId)
    (principal : Principal) : Bool :=
  match mapGet s.discussions discussion_id with
  | some discussion =>
      discussion.proposer = principal ∨ principal ∈ discussion.contributors
  | none => false

/-- `can_comment`: proposer, contributor, or anyone during Brainstorm. -/
def can_comment (s : DiscussionState) (discussion_id : DiscussionId)
    (principal : Principal) : Bool :=
  match mapGet s.discussions discussion_id with
  | some discussion =>
      if discussion.proposer = principal then true
      else if principal ∈ discussion.contributors then true
      else if discussion.stage = DiscussionStage.Brainstorm then true
      else false
  | none => false

/-- `get_participant_count`: cardinality of the per-discussion human participant set. -/
def get_participant_count (s : DiscussionState) (discussion_id : DiscussionId) : Nat :=
  ((mapGet s.discussion_participants discussion_id).getD []).length

/-- Whether a comment counts as substantive: not retracted, human-authored,
content at least `SUBSTANTIVE_COMMENT_MIN_CHARS` characters. -/
def substantiveComment (c : Comment) : Bool :=
  !c.is_retracted && c.author_type = AuthorType.Human
    && decide (SUBSTANTIVE_COMMENT_MIN_CHARS ≤ strCharCount c.content)

/-- `count_substantive_comments`. -/
def count_substantive_comments (s : DiscussionState) (discussion_id : DiscussionId) : Nat :=
  ((((mapGet s.discussion_comments discussion_id).getD []).filterMap
      (fun cid => mapGet s.comments cid)).filter substantiveComment).length

/-! ## Validation (`src/discussion/validation.rs`) -/

/-- `validate_create_discussion`. -/
def validate_create_discussion (args : CreateDiscussionArgs) : Except String Unit :=
  if args.title.isEmpty then
    Except.error "Title cannot be empty"
  else if MAX_TITLE_LEN < strByteLen args.title then
    Except.error ("Title too long (max " ++ toString MAX_TITLE_LEN ++ " characters)")
  else if args.description.isEmpty then
    Except.error "Description cannot be empty"
  else if MAX_DESCRIPTION_LEN < strByteLen args.description then
    Except.error ("Description too long (max " ++ toString MAX_DESCRIPTION_LEN ++ " bytes)")
  else
    Except.ok ()

/-- `validate_comment`. -/
def validate_comment (args : AddCommentArgs) : Except String Unit :=
  if args.content.isEmpty then
    Except.error "Comment content cannot be empty"
  else if MAX_COMMENT_LEN < strByteLen args.content then
    Except.error ("Comment too long (max " ++ toString MAX_COMMENT_LEN ++ " bytes)")
  else
    Except.ok ()

/-- `validate_stage_transition`. -/
def validate_stage_transition (current target : DiscussionStage) : Except String Unit :=
  match current, target with
  | DiscussionStage.Brainstorm, DiscussionStage.Refining => Except.ok ()
  | DiscussionStage.Refining, DiscussionStage.Ready => Except.ok ()
  | DiscussionStage.Ready, _ => Except.error "Cannot transition from Ready stage"
  | a, b =>
      if a = b then Except.error ("Already in " ++ stageDebug a ++ " stage")
      else Except.error ("Invalid transition: " ++ stageDebug a ++ " → " ++ stageDebug b)

/-- `check_quality_gates`. -/
def check_quality_gates (s : DiscussionState) (discussion_id : DiscussionId)
    (now : Nat) : QualityGateStatus :=
  match mapGet s.discussions discussion_id with
  | none =>
      { participants_met := false, participants_count := 0,
        comments_met := false, substantive_comments := 0,
        duration_met := false, hours_in_refining := 0, all_met := false }
  | some discussion =>
      let participants_count := get_participant_count s discussion_id
      let participants_met : Bool := MIN_PARTICIPANTS ≤ participants_count
      let substantive_comments := count_substantive_comments s discussion_id
      let comments_met : Bool := MIN_SUBSTANTIVE_COMMENTS ≤ substantive_comments
      let dur : Bool × Nat :=
        if discussion.stage = DiscussionStage.Refining then
          let time_in_stage_ns := now - discussion.stage_changed_at
          (decide (MIN_REFINING_DURATION_NS ≤ time_in_stage_ns), time_in_stage_ns / NS_PER_HOUR)
        else if discussion.stage = DiscussionStage.Ready then (true, 48)
        else (false, 0)
      { participants_met := participants_met, participants_count := participants_count,
        comments_met := comments_met, substantive_comments := substantive_comments,
        duration_met := dur.1, hours_in_refining := dur.2,
        all_met := participants_met && comments_met && dur.1 }

/-! ## API operations (`src/discussion/api.rs`)

Each operation takes the store state and returns the call's result paired
with the state after the call (the Rust code mutates the thread-local
store inside `with_discussion_state_mut`). -/

/-- `create_discussion`. -/
def create_discussion (caller : Principal) (args : CreateDiscussionArgs) (now : Nat)
    (s : DiscussionState) : Except String DiscussionId × DiscussionState :=
  match validate_create_discussion args with
  | Except.error e => (Except.error e, s)
  | Except.ok _ =>
      let id := s.next_discussion_id
      let discussion : Discussion :=
        { id := id, title := args.title, description := args.description,
          category := args.category, proposer := caller, contributors := [],
          stage := DiscussionStage.Brainstorm, created_at := now,
          stage_changed_at := now, comment_count := 0, participant_count := 1,
          is_archived := false }
      (Except.ok id,
        { s with
          discussions := mapInsert s.discussions id discussion,
          discussion_comments := mapInsert s.discussion_comments id [],
          discussion_participants :=
            mapInsert s.discussion_participants id
              (setInsert caller ((mapGet s.discussion_participants id).getD [])),
          user_discussions :=
            mapInsert s.user_discussions caller
              (((mapGet s.user_discussions caller).getD []) ++ [id]),
          next_discussion_id := s.next_discussion_id + 1 })

/-- `archive_discussion`. -/
def archive_discussion (caller : Principal) (discussion_id : DiscussionId) (now : Nat)
    (s : DiscussionState) : Except String Unit × DiscussionState :=
  match mapGet s.discussions discussion_id with
  | none => (Except.error "Discussion not found", s)
  | some discussion =>
      if discussion.proposer ≠ caller then
        (Except.error "Only the proposer can archive this discussion", s)
      else if discussion.is_archived then
        (Except.error "Discussion is already archived", s)
      else
        let _ := now
        (Except.ok (),
          { s with discussions :=
              (mapUpdate s.discussions discussion_id
                (fun d => { d with is_archived := true })) })

/-- `add_comment`. -/
def add_comment (caller : Principal) (args : AddCommentArgs) (now : Nat)
    (s : DiscussionState) : Except String CommentId × DiscussionState :=
  match validate_comment args with
  | Except.error e => (Except.error e, s)
  | Except.ok _ =>
      match mapGet s.discussions args.discussion_id with
      | none => (Except.error "Discussion not found", s)
      | some discussion =>
          if discussion.is_archived then
            (Except.error "Cannot comment on an archived discussion", s)
          else if ¬ can_comment s args.discussion_id caller then
            (Except.error
              "You are not authorized to comment on this discussion in its current stage", s)
          else
            let comment_id := s.next_comment_id
            let comment : Comment :=
              { id := comment_id, discussion_id := args.discussion_id, author := caller,
                content := args.content, author_type := args.author_type,
                created_at := now, is_retracted := false, retracted_at := none }
            let s1 : DiscussionState :=
              { s with
                comments := mapInsert s.comments comment_id comment,
                discussion_comments :=
                  mapInsert s.discussion_comments args.discussion_id
                    (((mapGet s.discussion_comments args.discussion_id).getD []) ++ [comment_id]),
                next_comment_id := s.next_comment_id + 1 }
            let s2 : DiscussionState :=
              if args.author_type = AuthorType.Human then
                { s1 with discussion_participants :=
                    (mapInsert s1.discussion_participants args.discussion_id
                      (setInsert caller
                        ((mapGet s1.discussion_participants args.discussion_id).getD []))) }
              else s1
            let new_participant_count : Option Nat :=
              if args.author_type = AuthorType.Human then
                some (get_participant_count s2 args.discussion_id)
              else none
            (Except.ok comment_id,
              { s2 with discussions :=
                  (mapUpdate s2.discussions args.discussion_id
                    (fun d =>
                      { d with
                        comment_count := d.comment_count + 1
                        participant_count :=
                          (new_participant_count.getD d.participant_count) })) })

/-- `retract_comment`. -/
def retract_comment (caller : Principal) (comment_id : CommentId) (now : Nat)
    (s : DiscussionState) : Except String Unit × DiscussionState :=
  match mapGet s.comments comment_id with
  | none => (Except.error "Comment not found", s)
  | some comment =>
      if comment.author ≠ caller then
        (Except.error "Only the comment author can retract this comment", s)
      else if comment.is_retracted then
        (Except.error "Comment is already retracted", s)
      else
        (Except.ok (),
          { s with comments :=
              (mapUpdate s.comments comment_id
                (fun c => { c with is_retracted := true, retracted_at := some now })) })

/-- The unmet-criteria message built by `advance_stage` on a failed
`Refining → Ready` quality-gate check. -/
def qualityGateFailureMessage (gs : QualityGateStatus) : String :=
  let missing : List String :=
    (if !gs.participants_met then
      ["participants (" ++ toString gs.participants_count ++ "/"
        ++ toString MIN_PARTICIPANTS ++ ")"] else [])
    ++ (if !gs.comments_met then
      ["substantive comments (" ++ toString gs.substantive_comments ++ "/"
        ++ toString MIN_SUBSTANTIVE_COMMENTS ++ ")"] else [])
    ++ (if !gs.duration_met then
      ["time in Refining (" ++ toString gs.hours_in_refining ++ "h/48h)"] else [])
  "Quality gates not met: " ++ String.intercalate ", " missing

/-- `advance_stage`. -/
def advance_stage (caller : Principal) (discussion_id : DiscussionId) (now : Nat)
    (s : DiscussionState) : Except String DiscussionStage × DiscussionState :=
  match mapGet s.discussions discussion_id with
  | none => (Except.error "Discussion not found", s)
  | some discussion =>
      if ¬ is_proposer_or_contributor s discussion_id caller then
        (Except.error "Only the proposer or a contributor can advance the stage", s)
      else if discussion.is_archived then
        (Except.error "Cannot advance stage of an archived discussion", s)
      else
        let current_stage := discussion.stage
        let target? : Option DiscussionStage :=
          match current_stage with
          | DiscussionStage.Brainstorm => some DiscussionStage.Refining
          | DiscussionStage.Refining => some DiscussionStage.Ready
          | DiscussionStage.Ready => none
        match target? with
        | none => (Except.error "Discussion is already in Ready stage", s)
        | some target_stage =>
            match validate_stage_transition current_stage target_stage with
            | Except.error e => (Except.error e, s)
            | Except.ok _ =>
                let gate_status := check_quality_gates s discussion_id now
                if current_stage = DiscussionStage.Refining
                    ∧ target_stage = DiscussionStage.Ready
                    ∧ ¬ gate_status.all_met then
                  (Except.error (qualityGateFailureMessage gate_status), s)
                else
                  (Except.ok target_stage,
                    { s with discussions :=
                        (mapUpdate s.discussions discussion_id
                          (fun d =>
                            { d with
                              stage := target_stage
                              stage_changed_at := now })) })

/-- `invite_contributor`. -/
def invite_contributor (caller : Principal) (discussion_id : DiscussionId)
    (invitee : Principal) (now : Nat)
    (s : DiscussionState) : Except String Unit × DiscussionState :=
  match mapGet s.discussions discussion_id with
  | none => (Except.error "Discussion not found", s)
  | some discussion =>
      if ¬ is_proposer_or_contributor s discussion_id caller then
        (Except.error "Only the proposer or a contributor can invite others", s)
      else if discussion.is_archived then
        (Except.error "Cannot invite to an archived discussion", s)
      else if discussion.proposer = invitee then
        (Except.error "Cannot invite the proposer", s)
      else if invitee ∈ discussion.contributors then
        (Except.error "User is already a contributor", s)
      else if (mapGet s.invites (discussion_id, invitee)).isSome then
        (Except.error "User already has a pending invitation", s)
      else
        let invite : ContributorInvite :=
          { discussion_id := discussion_id, invitee := invitee, invited_by := caller,
            invited_at := now, status := InviteStatus.Pending }
        (Except.ok (),
          { s with invites := mapInsert s.invites (discussion_id, invitee) invite })

/-- `respond_to_invite`. -/
def respond_to_invite (caller : Principal) (discussion_id : DiscussionId)
    (accept : Bool) (now : Nat)
    (s : DiscussionState) : Except String Unit × DiscussionState :=
  match mapGet s.invites (discussion_id, caller) with
  | none => (Except.error "No invitation found for you", s)
  | some invite =>
      if invite.status ≠ InviteStatus.Pending then
        (Except.error "Invitation has already been responded to", s)
      else
        let _ := now
        if accept then
          (Except.ok (),
            { s with
              invites :=
                (mapUpdate s.invites (discussion_id, caller)
                  (fun inv => { inv with status := InviteStatus.Accepted })),
              discussions :=
                (mapUpdate s.discussions discussion_id
                  (fun d =>
                    if caller ∈ d.contributors then d
                    else { d with contributors := d.contributors ++ [caller] })) })
        else
          (Except.ok (),
            { s with invites :=
                (mapUpdate s.invites (discussion_id, caller)
                  (fun inv => { inv with status := InviteStatus.Declined })) })

/-- `get_quality_gate_status` (read-only probe). -/
def get_quality_gate_status (discussion_id : DiscussionId) (now : Nat)
    (s : DiscussionState) : Option QualityGateStatus :=
  if (mapGet s.discussions discussion_id).isSome then
    some (check_quality_gates s discussion_id now)
  else
    none

/-! ## Verification hasher (`src/discussion/hash.rs`) -/

/-- The byte stream fed to the SHA-256 hasher for one comment: identifier,
author identity, content, creation time, and a single retraction-flag byte. -/
def commentHashBytes (c : Comment) : List Nat :=
  u64LeBytes c.id ++ c.author ++ strBytes c.content ++ u64LeBytes c.created_at
    ++ [if c.is_retracted then 1 else 0]

/-- The byte stream fed to the SHA-256 hasher by `generate_discussion_hash`:
discussion identifier, title, description, category tag, proposer identity,
then every comment in ledger order. -/
def discussionHashInput (discussion : Discussion) (comments : List Comment) : List Nat :=
  u64LeBytes discussion.id ++ strBytes discussion.title ++ strBytes discussion.description
    ++ asciiBytes (categoryDebug discussion.category) ++ discussion.proposer
    ++ comments.flatMap commentHashBytes

/-- `generate_discussion_hash`.  Modelled from the spec: the SHA-256 digest
and hex encoding come from the external `sha2` and `hex` crates, which are
not part of this repository; the digest is abstracted as an arbitrary fixed
function `digest` of the accumulated byte stream, which is what the
determinism and field-dependence properties quantify over. -/
def generate_discussion_hash (digest : List Nat → String)
    (discussion : Discussion) (comments : List Comment) : String :=
  digest (discussionHashInput discussion comments)

/-! ## Auxiliary predicates used by the statements -/

/-- Rank of a stage in the forward order Brainstorm → Refining → Ready. -/
def stageRank : DiscussionStage → Nat
  | DiscussionStage.Brainstorm => 0
  | DiscussionStage.Refining => 1
  | DiscussionStage.Ready => 2

/-- The unique legal successor of a stage, if any. -/
def stageSucc : DiscussionStage → Option DiscussionStage
  | DiscussionStage.Brainstorm => some DiscussionStage.Refining
  | DiscussionStage.Refining => some DiscussionStage.Ready
  | DiscussionStage.Ready => none

/-- The participant set recorded for a discussion (empty if no entry). -/
def participantSet (s : DiscussionState) (did : DiscussionId) : List Principal :=
  (mapGet s.discussion_participants did).getD []

/-- The `participant_count` field of a discussion, `0` if absent. -/
def pcount (s : DiscussionState) (did : DiscussionId) : Nat :=
  ((mapGet s.discussions did).map Discussion.participant_count).getD 0

/-- All keys of an association list are below `n`. -/
def keysBelow {β : Type} (m : List (Nat × β)) (n : Nat) : Prop :=
  ∀ k v, (k, v) ∈ m → k < n

/-- Store invariant: every discussion's `participant_count` field equals the
cardinality of its participant set, and both tables' keys are below the
discussion-id counter (all reachable stores satisfy this). -/
def StoreInv (s : DiscussionState) : Prop :=
  (∀ did d, mapGet s.discussions did = some d →
      d.participant_count = (participantSet s did).length)
  ∧ keysBelow s.discussions s.next_discussion_id
  ∧ keysBelow s.discussion_participants s.next_discussion_id

/-- Stage never moves backwards between two stores. -/
def stageMonotone (s s' : DiscussionState) : Prop :=
  ∀ did d d', mapGet s.discussions did = some d →
    mapGet s'.discussions did = some d' →
    stageRank d.stage ≤ stageRank d'.stage

/-! ## Map and set lemmas -/

theorem mapGet_mapInsert_self {α β : Type} [DecidableEq α] (m : List (α × β)) (k : α)
    (v : β) : mapGet (mapInsert m k v) k = some v := by
  induction m with
  | nil => simp [mapInsert, mapGet]
  | cons hd tl ih =>
      obtain ⟨k0, v0⟩ := hd
      by_cases h : k0 = k
      · subst h; simp [mapInsert, mapGet]
      · simp [mapInsert, mapGet, h, ih]

theorem mapGet_mapInsert_ne {α β : Type} [DecidableEq α] (m : List (α × β)) (k k' : α)
    (v : β) (h : k' ≠ k) : mapGet (mapInsert m k v) k' = mapGet m k' := by
  induction m with
  | nil =>
      have hne : ¬ k = k' := fun he => h he.symm
      simp [mapInsert, mapGet, hne]
  | cons hd tl ih =>
      obtain ⟨k0, v0⟩ := hd
      by_cases hk : k0 = k
      · subst hk
        have hne : ¬ k0 = k' := fun he => h he.symm
        simp [mapInsert, mapGet, hne]
      · simp [mapInsert, mapGet, hk, ih]

theorem mapGet_mapUpdate_self {α β : Type} [DecidableEq α] (m : List (α × β)) (k : α)
    (f : β → β) : mapGet (mapUpdate m k f) k = (mapGet m k).map f := by
  induction m with
  | nil => simp [mapUpdate, mapGet]
  | cons hd tl ih =>
      obtain ⟨k0, v0⟩ := hd
      by_cases h : k0 = k
      · subst h; simp [mapUpdate, mapGet]
      · simp [mapUpdate, mapGet, h, ih]

theorem mapGet_mapUpdate_ne {α β : Type} [DecidableEq α] (m : List (α × β)) (k k' : α)
    (f : β → β) (h : k' ≠ k) : mapGet (mapUpdate m k f) k' = mapGet m k' := by
  induction m with
  | nil => simp [mapUpdate, mapGet]
  | cons hd tl ih =>
      obtain ⟨k0, v0⟩ := hd
      by_cases hk : k0 = k
      · subst hk
        have hne : ¬ k0 = k' := fun he => h he.symm
        simp [mapUpdate, mapGet, hne]
      · simp [mapUpdate, mapGet, hk, ih]

theorem mapGet_mem {α β : Type} [DecidableEq α] (m : List (α × β)) (k : α) (v : β)
    (h : mapGet m k = some v) : (k, v) ∈ m := by
  induction m with
  | nil => simp [mapGet] at h
  | cons hd tl ih =>
      obtain ⟨k0, v0⟩ := hd
      by_cases hk : k0 = k
      · subst hk
        simp [mapGet] at h
        simp [h]
      · simp [mapGet, hk] at h
        simp [ih h]

theorem mapUpdate_mem_sub {α β : Type} [DecidableEq α] (m : List (α × β)) (k : α)
    (f : β → β) (k' : α) (v' : β) (h : (k', v') ∈ mapUpdate m k f) :
    ∃ v, (k', v) ∈ m := by
  induction m with
  | nil => simp [mapUpdate] at h
  | cons hd tl ih =>
      obtain ⟨k0, v0⟩ := hd
      by_cases hk : k0 = k
      · subst hk
        simp [mapUpdate] at h
        rcases h with ⟨hk', _⟩ | h
        · exact ⟨v0, by simp [hk']⟩
        · exact ⟨v', by simp [h]⟩
      · simp [mapUpdate, hk] at h
        rcases h with ⟨hk', hv'⟩ | h
        · exact ⟨v0, by simp [hk', hv']⟩
        · rcases ih h with ⟨v, hv⟩
          exact ⟨v, by simp [hv]⟩

theorem keysBelow_mapUpdate {β : Type} (m : List (Nat × β)) (n : Nat) (k : Nat)
    (f : β → β) (h : keysBelow m n) : keysBelow (mapUpdate m k f) n := by
  intro k' v' hm
  rcases mapUpdate_mem_sub m k f k' v' hm with ⟨v, hv⟩
  exact h k' v hv

theorem keysBelow_mapInsert {β : Type} (m : List (Nat × β)) (n : Nat) (k : Nat)
    (v : β) (h : keysBelow m n) (hk : k < n) : keysBelow (mapInsert m k v) n := by
  induction m with
  | nil =>
      intro k' v' hm
      simp [mapInsert] at hm
      simp [hm.1, hk]
  | cons hd tl ih =>
      obtain ⟨k0, v0⟩ := hd
      intro k' v' hm
      by_cases hk0 : k0 = k
      · subst hk0
        simp [mapInsert] at hm
        rcases hm with ⟨h1, _⟩ | h1
        · exact h1 ▸ hk
        · exact h k' v' (List.mem_cons_of_mem _ h1)
      · simp [mapInsert, hk0] at hm
        rcases hm with ⟨h1, h2⟩ | h1
        · exact h k' v' (by simp [h1, h2])
        · exact ih (fun a b hab => h a b (List.mem_cons_of_mem _ hab)) k' v' h1

theorem keysBelow_weaken {β : Type} (m : List (Nat × β)) (n n' : Nat)
    (h : keysBelow m n) (hn : n ≤ n') : keysBelow m n' := by
  intro k v hm
  exact lt_of_lt_of_le (h k v hm) hn

theorem keysBelow_get_lt {β : Type} (m : List (Nat × β)) (n : Nat) (k : Nat) (v : β)
    (h : keysBelow m n) (hg : mapGet m k = some v) : k < n :=
  h k v (mapGet_mem m k v hg)

theorem keysBelow_get_top {β : Type} (m : List (Nat × β)) (n : Nat)
    (h : keysBelow m n) : mapGet m n = none := by
  cases hg : mapGet m n with
  | none => rfl
  | some v => exact absurd (keysBelow_get_lt m n n v h hg) (lt_irrefl n)

theorem setInsert_length_le {α : Type} [DecidableEq α] (x : α) (s : List α) :
    s.length ≤ (setInsert x s).length := by
  by_cases h : x ∈ s <;> simp [setInsert, h]

/-! ## Per-operation frame lemmas: every failing call returns the store as it
was (each error branch of the source returns before any table is touched) -/

theorem create_discussion_frame_or (caller : Principal) (args : CreateDiscussionArgs)
    (now : Nat) (s : DiscussionState) :
    (create_discussion caller args now s).2 = s ∨
      ∃ id, (create_discussion caller args now s).1 = Except.ok id := by
  unfold create_discussion
  repeat' split
  all_goals try (left; rfl)
  all_goals try (right; rfl)
  all_goals exact Or.inr ⟨_, rfl⟩

theorem add_comment_frame_or (caller : Principal) (args : AddCommentArgs)
    (now : Nat) (s : DiscussionState) :
    (add_comment caller args now s).2 = s ∨
      ∃ cid, (add_comment caller args now s).1 = Except.ok cid := by
  unfold add_comment
  repeat' split
  all_goals try (left; rfl)
  all_goals try (right; rfl)
  all_goals exact Or.inr ⟨_, rfl⟩

theorem retract_comment_frame_or (caller : Principal) (comment_id : CommentId)
    (now : Nat) (s : DiscussionState) :
    (retract_comment caller comment_id now s).2 = s ∨
      (retract_comment caller comment_id now s).1 = Except.ok () := by
  unfold retract_comment
  repeat' split
  all_goals try (left; rfl)
  all_goals try (right; rfl)
  all_goals exact Or.inr ⟨_, rfl⟩

theorem advance_stage_frame_or (caller : Principal) (discussion_id : DiscussionId)
    (now : Nat) (s : DiscussionState) :
    (advance_stage caller discussion_id now s).2 = s ∨
      ∃ t, (advance_stage caller discussion_id now s).1 = Except.ok t := by
  unfold advance_stage
  dsimp only
  repeat' split
  all_goals try (left; rfl)
  all_goals try (right; rfl)
  all_goals exact Or.inr ⟨_, rfl⟩

theorem invite_contributor_frame_or (caller : Principal) (discussion_id : DiscussionId)
    (invitee : Principal) (now : Nat) (s : DiscussionState) :
    (invite_contributor caller discussion_id invitee now s).2 = s ∨
      (invite_contributor caller discussion_id invitee now s).1 = Except.ok () := by
  unfold invite_contributor
  repeat' split
  all_goals try (left; rfl)
  all_goals try (right; rfl)
  all_goals exact Or.inr ⟨_, rfl⟩

theorem respond_to_invite_frame_or (caller : Principal) (discussion_id : DiscussionId)
    (accept : Bool) (now : Nat) (s : DiscussionState) :
    (respond_to_invite caller discussion_id accept now s).2 = s ∨
      (respond_to_invite caller discussion_id accept now s).1 = Except.ok () := by
  unfold respond_to_invite
  repeat' split
  all_goals try (left; rfl)
  all_goals try (right; rfl)
  all_goals exact Or.inr ⟨_, rfl⟩

theorem archive_discussion_frame_or (caller : Principal) (discussion_id : DiscussionId)
    (now : Nat) (s : DiscussionState) :
    (archive_discussion caller discussion_id now s).2 = s ∨
      (archive_discussion caller discussion_id now s).1 = Except.ok () := by
  unfold archive_discussion
  repeat' split
  all_goals try (left; rfl)
  all_goals try (right; rfl)
  all_goals exact Or.inr ⟨_, rfl⟩

/-! ## Concrete example stores used by the witnesses

Proposer `[7]` creates discussion 1; three humans (`[7]`, `[8]`, `[9]`) leave
five 50-character comments during Brainstorm; the stage is advanced to
Refining at time `1000` and to Ready 48 hours later.  A parallel branch
invites principal `[30]`, who declines, and another retracts comment 1. -/

def exArgs : CreateDiscussionArgs := ⟨[97], [98], ProposalCategory.Operational⟩

def exC50 : RString := List.replicate 50 97

def exState0 : DiscussionState :=
  (create_discussion [7] exArgs 100 DiscussionState.new).2

def exState1 : DiscussionState :=
  (add_comment [7] ⟨1, exC50, AuthorType.Human⟩ 101 exState0).2

def exState2 : DiscussionState :=
  (add_comment [8] ⟨1, exC50, AuthorType.Human⟩ 102 exState1).2

def exState3 : DiscussionState :=
  (add_comment [9] ⟨1, exC50, AuthorType.Human⟩ 103 exState2).2

def exState4 : DiscussionState :=
  (add_comment [8] ⟨1, exC50, AuthorType.Human⟩ 104 exState3).2

def exState5 : DiscussionState :=
  (add_comment [9] ⟨1, exC50, AuthorType.Human⟩ 105 exState4).2

def exRefining : DiscussionState := (advance_stage [7] 1 1000 exState5).2

def exReadyTime : Nat := 1000 + 48 * 60 * 60 * 1000000000

def exReady : DiscussionState := (advance_stage [7] 1 exReadyTime exRefining).2

def exInvited : DiscussionState := (invite_contributor [7] 1 [30] 200 exState0).2

def exDeclined : DiscussionState := (respond_to_invite [30] 1 false 201 exInvited).2

def exRetracted : DiscussionState := (retract_comment [7] 1 300 exState1).2

theorem frame_of_or {α : Type} (r : Except String α × DiscussionState) (s : DiscussionState)
    (h : r.2 = s ∨ ∃ x, r.1 = Except.ok x) (e : String)
    (he : r.1 = Except.error e) : r.2 = s := by
  rcases h with h | ⟨x, hx⟩
  · exact h
  · rw [he] at hx
    cases hx

/-! ## Claim theorems -/

/-- Claim C3: every operation of the discussion subsystem (create_discussion,
add_comment, retract_comment, advance_stage, invite_contributor,
respond_to_invite, archive_discussion) is all-or-nothing: whenever a call
returns an error, the whole store — every table and both id counters — is
exactly as it was before the call. -/
theorem operations_atomic_on_error (s : DiscussionState) :
    (∀ caller args now e, (create_discussion caller args now s).1 = Except.error e →
        (create_discussion caller args now s).2 = s)
    ∧ (∀ caller args now e, (add_comment caller args now s).1 = Except.error e →
        (add_comment caller args now s).2 = s)
    ∧ (∀ caller cid now e, (retract_comment caller cid now s).1 = Except.error e →
        (retract_comment caller cid now s).2 = s)
    ∧ (∀ caller did now e, (advance_stage caller did now s).1 = Except.error e →
        (advance_stage caller did now s).2 = s)
    ∧ (∀ caller did invitee now e,
        (invite_contributor caller did invitee now s).1 = Except.error e →
        (invite_contributor caller did invitee now s).2 = s)
    ∧ (∀ caller did accept now e,
        (respond_to_invite caller did accept now s).1 = Except.error e →
        (respond_to_invite caller did accept now s).2 = s)
    ∧ (∀ caller did now e, (archive_discussion caller did now s).1 = Except.error e →
        (archive_discussion caller did now s).2 = s) := by
  refine ⟨?_, ?_, ?_, ?_, ?_, ?_, ?_⟩
  · intro caller args now e he
    exact frame_of_or _ s (create_discussion_frame_or caller args now s) e he
  · intro caller args now e he
    exact frame_of_or _ s (add_comment_frame_or caller args now s) e he
  · intro caller cid now e he
    exact frame_of_or _ s
      ((retract_comment_frame_or caller cid now s).imp_right (fun h => ⟨(), h⟩)) e he
  · intro caller did now e he
    exact frame_of_or _ s (advance_stage_frame_or caller did now s) e he
  · intro caller did invitee now e he
    exact frame_of_or _ s
      ((invite_contributor_frame_or caller did invitee now s).imp_right (fun h => ⟨(), h⟩)) e he
  · intro caller did accept now e he
    exact frame_of_or _ s
      ((respond_to_invite_frame_or caller did accept now s).imp_right (fun h => ⟨(), h⟩)) e he
  · intro caller did now e he
    exact frame_of_or _ s
      ((archive_discussion_frame_or caller did now s).imp_right (fun h => ⟨(), h⟩)) e he

/-- Witness for C3 at a concrete failing call: adding a comment to the absent
discussion 1 of the fresh store fails and leaves the store unchanged. -/
theorem operations_atomic_on_error_witness :
    (add_comment [0] ⟨1, [97], AuthorType.Human⟩ 0 DiscussionState.new).2
      = DiscussionState.new :=
  (operations_atomic_on_error DiscussionState.new).2.1 [0] ⟨1, [97], AuthorType.Human⟩ 0
    "Discussion not found" rfl

/-- Claim C9: terminal states reject repeated mutation — retracting a comment
whose retraction flag is already set fails (with the `already retracted` error
when the caller is the author), and responding to an invite whose status is not
`Pending` fails with the `already responded` error; in both cases the store,
and so the record's terminal state, is unchanged. -/
theorem terminal_states_reject_mutation :
    (∀ caller cid now s c, mapGet s.comments cid = some c → c.is_retracted = true →
        (∃ e, (retract_comment caller cid now s).1 = Except.error e)
        ∧ (retract_comment caller cid now s).2 = s)
    ∧ (∀ caller cid now s c, mapGet s.comments cid = some c → c.is_retracted = true →
        c.author = caller →
        (retract_comment caller cid now s).1 = Except.error "Comment is already retracted")
    ∧ (∀ caller did accept now s inv, mapGet s.invites (did, caller) = some inv →
        inv.status ≠ InviteStatus.Pending →
        (respond_to_invite caller did accept now s).1 =
            Except.error "Invitation has already been responded to"
        ∧ (respond_to_invite caller did accept now s).2 = s) := by
  refine ⟨?_, ?_, ?_⟩
  · intro caller cid now s c hc hr
    unfold retract_comment
    rw [hc]
    by_cases ha : c.author ≠ caller
    · simp [ha]
    · simp [ha, hr]
  · intro caller cid now s c hc hr ha
    unfold retract_comment
    rw [hc]
    simp [ha, hr]
  · intro caller did accept now s inv hi hs
    unfold respond_to_invite
    rw [hi]
    simp [hs]

/-- Witness for C9: in the example store, retracting the already-retracted
comment 1 fails with the `already retracted` error, and the declined invite
for `[30]` rejects a second response, leaving the store unchanged. -/
theorem terminal_states_reject_mutation_witness :
    (retract_comment [7] 1 301 exRetracted).1 = Except.error "Comment is already retracted"
    ∧ (respond_to_invite [30] 1 true 400 exDeclined).1 =
        Except.error "Invitation has already been responded to"
    ∧ (respond_to_invite [30] 1 true 400 exDeclined).2 = exDeclined := by
  refine ⟨?_, ?_, ?_⟩
  · exact terminal_states_reject_mutation.2.1 [7] 1 301 exRetracted
      { id := 1, discussion_id := 1, author := [7], content := exC50,
        author_type := AuthorType.Human, created_at := 101, is_retracted := true,
        retracted_at := some 300 } (by decide) rfl rfl
  · exact (terminal_states_reject_mutation.2.2 [30] 1 true 400 exDeclined
      { discussion_id := 1, invitee := [30], invited_by := [7], invited_at := 200,
        status := InviteStatus.Declined } (by decide) (by decide)).1
  · exact (terminal_states_reject_mutation.2.2 [30] 1 true 400 exDeclined
      { discussion_id := 1, invitee := [30], invited_by := [7], invited_at := 200,
        status := InviteStatus.Declined } (by decide) (by decide)).2

/-- Claim C10: for a discussion in the Ready stage, the quality-gate probe
reports `duration_met = true` and `hours_in_refining = 48` as constants,
for every probe time `now` and every recorded `stage_changed_at`. -/
theorem ready_gate_status_constant (did : DiscussionId) (now : Nat) (s : DiscussionState)
    (d : Discussion) (hd : mapGet s.discussions did = some d)
    (hstage : d.stage = DiscussionStage.Ready) :
    ∃ gs, get_quality_gate_status did now s = some gs ∧
      gs.duration_met = true ∧ gs.hours_in_refining = 48 := by
  refine ⟨check_quality_gates s did now, ?_, ?_, ?_⟩
  · unfold get_quality_gate_status
    simp [hd]
  · unfold check_quality_gates
    rw [hd]
    simp [hstage]
  · unfold check_quality_gates
    rw [hd]
    simp [hstage]

/-- Witness for C10: probing the example Ready-stage store at the arbitrary
time `424242` reports `duration_met` and the constant 48 hours. -/
theorem ready_gate_status_constant_witness :
    ∃ gs, get_quality_gate_status 1 424242 exReady = some gs ∧
      gs.duration_met = true ∧ gs.hours_in_refining = 48 :=
  ready_gate_status_constant 1 424242 exReady
    { id := 1, title := [97], description := [98],
      category := ProposalCategory.Operational, proposer := [7], contributors := [],
      stage := DiscussionStage.Ready, created_at := 100,
      stage_changed_at := exReadyTime, comment_count := 5, participant_count := 3,
      is_archived := false } (by decide) rfl

theorem invite_record_blocks (caller : Principal) (did : DiscussionId)
    (invitee : Principal) (now : Nat) (s : DiscussionState) (inv : ContributorInvite)
    (hi : mapGet s.invites (did, invitee) = some inv) :
    ∃ e, (invite_contributor caller did invitee now s).1 = Except.error e := by
  unfold invite_contributor
  cases hd : mapGet s.discussions did with
  | none => exact ⟨_, rfl⟩
  | some d =>
      repeat' split
      all_goals try exact ⟨_, rfl⟩
      all_goals exfalso; simp_all

theorem respond_decline_shape (caller : Principal) (did : DiscussionId) (now : Nat)
    (s : DiscussionState)
    (hok : (respond_to_invite caller did false now s).1 = Except.ok ()) :
    ∃ inv, mapGet s.invites (did, caller) = some inv
      ∧ inv.status = InviteStatus.Pending
      ∧ (respond_to_invite caller did false now s).2.invites =
          mapUpdate s.invites (did, caller)
            (fun i => { i with status := InviteStatus.Declined }) := by
  unfold respond_to_invite at hok ⊢
  cases hi : mapGet s.invites (did, caller) with
  | none =>
      rw [hi] at hok
      simp at hok
  | some inv =>
      rw [hi] at hok
      by_cases hs : inv.status ≠ InviteStatus.Pending
      · simp [hs] at hok
      · refine ⟨inv, ?_, by simpa using hs, ?_⟩
        · first | rfl | exact hi
        · simp [hs]

/-- Claim C5: `invite_contributor` rejects whenever any invite record exists
for (discussion, invitee) regardless of its status — in particular after a
decline, every later re-invite of the same principal fails — and likewise
rejects when the invitee is the proposer or already a contributor. -/
theorem invite_rejects_existing_record :
    (∀ caller did invitee now s inv, mapGet s.invites (did, invitee) = some inv →
        ∃ e, (invite_contributor caller did invitee now s).1 = Except.error e)
    ∧ (∀ caller did invitee now s d, mapGet s.discussions did = some d →
        d.proposer = invitee →
        ∃ e, (invite_contributor caller did invitee now s).1 = Except.error e)
    ∧ (∀ caller did invitee now s d, mapGet s.discussions did = some d →
        invitee ∈ d.contributors →
        ∃ e, (invite_contributor caller did invitee now s).1 = Except.error e)
    ∧ (∀ caller did now s, (respond_to_invite caller did false now s).1 = Except.ok () →
        ∀ caller2 now2, ∃ e,
          (invite_contributor caller2 did caller now2
            (respond_to_invite caller did false now s).2).1 = Except.error e) := by
  refine ⟨?_, ?_, ?_, ?_⟩
  · intro caller did invitee now s inv hi
    exact invite_record_blocks caller did invitee now s inv hi
  · intro caller did invitee now s d hd hp
    unfold invite_contributor
    rw [hd]
    repeat' split
    all_goals try exact ⟨_, rfl⟩
    all_goals exfalso; simp_all
  · intro caller did invitee now s d hd hm
    unfold invite_contributor
    rw [hd]
    repeat' split
    all_goals try exact ⟨_, rfl⟩
    all_goals exfalso; simp_all
  · intro caller did now s hok caller2 now2
    rcases respond_decline_shape caller did now s hok with ⟨inv, hi, _, hinv⟩
    refine invite_record_blocks caller2 did caller now2 _
      { inv with status := InviteStatus.Declined } ?_
    rw [hinv, mapGet_mapUpdate_self, hi]
    rfl

/-- Witness for C5: principal `[30]` declined the invite to discussion 1, and
the later attempt to re-invite them fails. -/
theorem invite_rejects_existing_record_witness :
    ∃ e, (invite_contributor [7] 1 [30] 500
        (respond_to_invite [30] 1 false 201 exInvited).2).1 = Except.error e :=
  invite_rejects_existing_record.2.2.2 [30] 1 201 exInvited rfl [7] 500

/-- Counterexample for C4: with discussion 1 absent from the fresh store and
empty content, `add_comment` fails with the content-validation error, not with
`Discussion not found` — content validation runs before the existence check. -/
theorem add_comment_check_order_cex :
    (add_comment [0] ⟨1, [], AuthorType.Human⟩ 0 DiscussionState.new).1
        = Except.error "Comment content cannot be empty"
    ∧ mapGet DiscussionState.new.discussions 1 = none
    ∧ ("Comment content cannot be empty" : String) ≠ "Discussion not found" :=
  ⟨rfl, rfl, by decide⟩

/-- Claim C4 (amended): `add_comment` validates content first; a call whose
content is empty (or oversized) fails with the validation error regardless of
whether the discussion exists, and a call with valid content whose
discussion_id names no existing discussion fails with `Discussion not found`,
leaving the store unchanged. -/
theorem add_comment_absent_discussion_notfound :
    (∀ caller args now s, (args : AddCommentArgs).content.isEmpty = true →
        (add_comment caller args now s).1 = Except.error "Comment content cannot be empty")
    ∧ (∀ caller args now s, (args : AddCommentArgs).content.isEmpty = false →
        MAX_COMMENT_LEN < strByteLen args.content →
        (add_comment caller args now s).1 =
          Except.error ("Comment too long (max " ++ toString MAX_COMMENT_LEN ++ " bytes)"))
    ∧ (∀ caller args now s, mapGet s.discussions (args : AddCommentArgs).discussion_id = none →
        args.content.isEmpty = false → strByteLen args.content ≤ MAX_COMMENT_LEN →
        (add_comment caller args now s).1 = Except.error "Discussion not found"
        ∧ (add_comment caller args now s).2 = s) := by
  refine ⟨?_, ?_, ?_⟩
  · intro caller args now s hemp
    unfold add_comment validate_comment
    simp [hemp]
  · intro caller args now s hemp hlen
    unfold add_comment validate_comment
    simp [hemp, hlen]
  · intro caller args now s habs hemp hlen
    have hnl : ¬ MAX_COMMENT_LEN < strByteLen args.content := not_lt.mpr hlen
    unfold add_comment validate_comment
    simp only [hemp, hnl, if_false, Bool.false_eq_true, ite_false]
    rw [habs]
    exact ⟨rfl, rfl⟩

/-- Witness for C4 (amended): adding a valid one-byte comment to the absent
discussion 1 of the fresh store fails with `Discussion not found` and leaves
the store unchanged. -/
theorem add_comment_absent_discussion_notfound_witness :
    (add_comment [0] ⟨1, [97], AuthorType.Human⟩ 0 DiscussionState.new).1
        = Except.error "Discussion not found"
    ∧ (add_comment [0] ⟨1, [97], AuthorType.Human⟩ 0 DiscussionState.new).2
        = DiscussionState.new :=
  add_comment_absent_discussion_notfound.2.2 [0] ⟨1, [97], AuthorType.Human⟩ 0
    DiscussionState.new rfl rfl (by decide)

theorem validate_create_ok_iff (args : CreateDiscussionArgs) :
    validate_create_discussion args = Except.ok () ↔
      (args.title.isEmpty = false ∧ strByteLen args.title ≤ MAX_TITLE_LEN
        ∧ args.description.isEmpty = false
        ∧ strByteLen args.description ≤ MAX_DESCRIPTION_LEN) := by
  unfold validate_create_discussion
  repeat' split
  all_goals simp_all
  all_goals omega

/-- Counterexample for C8: a title of one character with an empty description
is rejected (`Description cannot be empty`) although the claim says any
1–200-character title with a ≤50KB description is accepted; and a title of
150 two-byte characters (≤ 200 characters but 300 UTF-8 bytes) is rejected by
the byte-length check. -/
theorem create_discussion_validation_cex :
    (create_discussion [0] ⟨[97], [], ProposalCategory.Operational⟩ 0
        DiscussionState.new).1 = Except.error "Description cannot be empty"
    ∧ strByteLen ([] : RString) ≤ MAX_DESCRIPTION_LEN
    ∧ (create_discussion [0] ⟨List.replicate 150 256, [100], ProposalCategory.Operational⟩ 0
        DiscussionState.new).1 = Except.error "Title too long (max 200 characters)"
    ∧ strCharCount (List.replicate 150 256) ≤ MAX_TITLE_LEN
    ∧ 1 ≤ strCharCount (List.replicate 150 256) :=
  ⟨rfl, by decide, rfl, by decide, by decide⟩

/-- Claim C8 (amended): `create_discussion` fails with a ValidationError
exactly when the title is empty, the title's UTF-8 byte length exceeds 200,
the description is empty, or the description's UTF-8 byte length exceeds
50KB (lengths are measured in bytes, not characters); on any other input the
call succeeds, returning the current discussion-id counter and inserting the
new Brainstorm-stage discussion. -/
theorem create_discussion_validation_characterization (caller : Principal)
    (args : CreateDiscussionArgs) (now : Nat) (s : DiscussionState) :
    ((∃ id, (create_discussion caller args now s).1 = Except.ok id) ↔
      (args.title.isEmpty = false ∧ strByteLen args.title ≤ MAX_TITLE_LEN
        ∧ args.description.isEmpty = false
        ∧ strByteLen args.description ≤ MAX_DESCRIPTION_LEN))
    ∧ (∀ id, (create_discussion caller args now s).1 = Except.ok id →
        id = s.next_discussion_id
        ∧ mapGet (create_discussion caller args now s).2.discussions id =
            some { id := id, title := args.title, description := args.description,
                   category := args.category, proposer := caller, contributors := [],
                   stage := DiscussionStage.Brainstorm, created_at := now,
                   stage_changed_at := now, comment_count := 0, participant_count := 1,
                   is_archived := false }) := by
  constructor
  · cases hv : validate_create_discussion args with
    | error e =>
        constructor
        · rintro ⟨id, hid⟩
          unfold create_discussion at hid
          rw [hv] at hid
          cases hid
        · intro hr
          have hok := (validate_create_ok_iff args).mpr hr
          rw [hv] at hok
          cases hok
    | ok u =>
        cases u
        constructor
        · intro _
          exact (validate_create_ok_iff args).mp hv
        · intro _
          refine ⟨s.next_discussion_id, ?_⟩
          unfold create_discussion
          rw [hv]
  · intro id hid
    cases hv : validate_create_discussion args with
    | error e =>
        unfold create_discussion at hid
        rw [hv] at hid
        cases hid
    | ok u =>
        cases u
        unfold create_discussion at hid ⊢
        rw [hv] at hid ⊢
        simp only [Except.ok.injEq] at hid
        subst hid
        exact ⟨rfl, by rw [mapGet_mapInsert_self]⟩

/-- Witness for C8 (amended): a one-byte title and one-byte description pass
validation and the discussion is inserted with id 1 into the fresh store. -/
theorem create_discussion_validation_characterization_witness :
    (∃ id, (create_discussion [7] exArgs 100 DiscussionState.new).1 = Except.ok id)
    ∧ mapGet (create_discussion [7] exArgs 100 DiscussionState.new).2.discussions 1 =
        some { id := 1, title := [97], description := [98],
               category := ProposalCategory.Operational, proposer := [7],
               contributors := [], stage := DiscussionStage.Brainstorm,
               created_at := 100, stage_changed_at := 100, comment_count := 0,
               participant_count := 1, is_archived := false } := by
  constructor
  · exact (create_discussion_validation_characterization [7] exArgs 100
      DiscussionState.new).1.mpr (by decide)
  · exact ((create_discussion_validation_characterization [7] exArgs 100
      DiscussionState.new).2 1 rfl).2

/-! ## Shapes of the discussions table after each operation -/

theorem create_discussion_discussions_shape (caller : Principal)
    (args : CreateDiscussionArgs) (now : Nat) (s : DiscussionState) :
    (create_discussion caller args now s).2.discussions = s.discussions ∨
      ∃ d0, (create_discussion caller args now s).2.discussions =
        mapInsert s.discussions s.next_discussion_id d0 := by
  unfold create_discussion
  repeat' split
  all_goals try (left; rfl)
  all_goals exact Or.inr ⟨_, rfl⟩

theorem add_comment_discussions_shape (caller : Principal) (args : AddCommentArgs)
    (now : Nat) (s : DiscussionState) :
    (add_comment caller args now s).2.discussions = s.discussions ∨
      ∃ npc : Option Nat, (add_comment caller args now s).2.discussions =
        mapUpdate s.discussions args.discussion_id
          (fun d => { d with
            comment_count := d.comment_count + 1
            participant_count := (npc.getD d.participant_count) }) := by
  unfold add_comment
  repeat' split
  all_goals try (left; rfl)
  all_goals exact Or.inr ⟨_, rfl⟩

theorem retract_comment_discussions_eq (caller : Principal) (cid : CommentId)
    (now : Nat) (s : DiscussionState) :
    (retract_comment caller cid now s).2.discussions = s.discussions := by
  unfold retract_comment
  repeat' split
  all_goals rfl

theorem invite_contributor_discussions_eq (caller : Principal) (did : DiscussionId)
    (invitee : Principal) (now : Nat) (s : DiscussionState) :
    (invite_contributor caller did invitee now s).2.discussions = s.discussions := by
  unfold invite_contributor
  repeat' split
  all_goals rfl

theorem archive_discussion_discussions_shape (caller : Principal) (did : DiscussionId)
    (now : Nat) (s : DiscussionState) :
    (archive_discussion caller did now s).2.discussions = s.discussions ∨
      (archive_discussion caller did now s).2.discussions =
        mapUpdate s.discussions did (fun d => { d with is_archived := true }) := by
  unfold archive_discussion
  repeat' split
  all_goals first | (left; rfl) | (right; rfl)

theorem respond_to_invite_discussions_shape (caller : Principal) (did : DiscussionId)
    (accept : Bool) (now : Nat) (s : DiscussionState) :
    (respond_to_invite caller did accept now s).2.discussions = s.discussions ∨
      (respond_to_invite caller did accept now s).2.discussions =
        mapUpdate s.discussions did
          (fun d => if caller ∈ d.contributors then d
                    else { d with contributors := d.contributors ++ [caller] }) := by
  unfold respond_to_invite
  repeat' split
  all_goals first | (left; rfl) | (right; rfl)

theorem advance_stage_discussions_shape (caller : Principal) (did : DiscussionId)
    (now : Nat) (s : DiscussionState) :
    (advance_stage caller did now s).2.discussions = s.discussions ∨
      ∃ d0, mapGet s.discussions did = some d0 ∧
        ∃ t, stageSucc d0.stage = some t ∧
          (advance_stage caller did now s).2.discussions =
            mapUpdate s.discussions did
              (fun d => { d with stage := t, stage_changed_at := now }) := by
  unfold advance_stage
  dsimp only
  repeat' split
  all_goals try (left; rfl)
  all_goals (right; refine ⟨_, (by assumption), _, ?_, rfl⟩)
  all_goals simp_all [stageSucc]

/-! ## Stage monotonicity combinators -/

theorem stageMonotone_of_eq (s s' : DiscussionState)
    (h : s'.discussions = s.discussions) : stageMonotone s s' := by
  intro did d d' hd hd'
  rw [h, hd] at hd'
  cases hd'
  exact le_refl _

theorem stageMonotone_of_update (s s' : DiscussionState) (k : DiscussionId)
    (f : Discussion → Discussion) (hf : ∀ d, (f d).stage = d.stage)
    (h : s'.discussions = mapUpdate s.discussions k f) : stageMonotone s s' := by
  intro did d d' hd hd'
  rw [h] at hd'
  by_cases hk : did = k
  · subst hk
    rw [mapGet_mapUpdate_self, hd] at hd'
    simp at hd'
    rw [← hd', hf]
  · rw [mapGet_mapUpdate_ne _ _ _ _ hk, hd] at hd'
    cases hd'
    exact le_refl _

theorem stageMonotone_insert_fresh (s s' : DiscussionState)
    (hk : keysBelow s.discussions s.next_discussion_id) (d0 : Discussion)
    (h : s'.discussions = mapInsert s.discussions s.next_discussion_id d0) :
    stageMonotone s s' := by
  intro did d d' hd hd'
  by_cases he : did = s.next_discussion_id
  · subst he
    exact absurd (keysBelow_get_lt _ _ _ _ hk hd) (lt_irrefl _)
  · rw [h, mapGet_mapInsert_ne _ _ _ _ he, hd] at hd'
    cases hd'
    exact le_refl _

theorem advance_stage_ok_shape (caller : Principal) (did : DiscussionId) (now : Nat)
    (s : DiscussionState) (t : DiscussionStage)
    (hok : (advance_stage caller did now s).1 = Except.ok t) :
    ∃ d, mapGet s.discussions did = some d ∧ stageSucc d.stage = some t ∧
      (advance_stage caller did now s).2.discussions =
        mapUpdate s.discussions did
          (fun x => { x with stage := t, stage_changed_at := now }) := by
  unfold advance_stage at hok ⊢
  cases hd : mapGet s.discussions did with
  | none =>
      rw [hd] at hok
      simp at hok
  | some d =>
      rw [hd] at hok
      dsimp only at hok ⊢
      by_cases hauth : is_proposer_or_contributor s did caller = true
      case neg =>
        rw [if_pos hauth] at hok
        simp at hok
      case pos =>
        rw [if_neg (not_not_intro hauth)] at hok ⊢
        by_cases harch : d.is_archived = true
        case pos =>
          rw [if_pos harch] at hok
          simp at hok
        case neg =>
          rw [if_neg harch] at hok ⊢
          cases hstage : d.stage with
          | Ready =>
              rw [hstage] at hok
              simp at hok
          | Brainstorm =>
              rw [hstage] at hok
              dsimp only [validate_stage_transition] at hok ⊢
              rw [if_neg (by simp)] at hok ⊢
              simp only [] at hok
              have ht : DiscussionStage.Refining = t := by simpa using hok
              subst ht
              exact ⟨d, rfl, by simp [hstage, stageSucc], rfl⟩
          | Refining =>
              rw [hstage] at hok
              dsimp only [validate_stage_transition] at hok ⊢
              by_cases hgate : (check_quality_gates s did now).all_met = true
              case neg =>
                rw [if_pos (by simp [hgate])] at hok
                simp at hok
              case pos =>
                rw [if_neg (by simp [hgate])] at hok ⊢
                have ht : DiscussionStage.Ready = t := by simpa using hok
                subst ht
                exact ⟨d, rfl, by simp [hstage, stageSucc], rfl⟩

theorem advance_stage_ready_errors (caller : Principal) (did : DiscussionId) (now : Nat)
    (s : DiscussionState) (d : Discussion) (hd : mapGet s.discussions did = some d)
    (hstage : d.stage = DiscussionStage.Ready) :
    ∃ e, (advance_stage caller did now s).1 = Except.error e := by
  cases hr : (advance_stage caller did now s).1 with
  | error e => exact ⟨e, rfl⟩
  | ok t =>
      rcases advance_stage_ok_shape caller did now s t hr with ⟨d0, hd0, hsucc, _⟩
      rw [hd] at hd0
      cases hd0
      rw [hstage] at hsucc
      simp [stageSucc] at hsucc

/-- Claim C1: stage transitions follow only Brainstorm→Refining→Ready: an
advance on a Ready-stage discussion errors; every failing advance leaves the
whole store (hence `stage`) unchanged; a successful advance moves exactly to
the unique successor stage; `validate_stage_transition` rejects every
same-stage or skipping pair; and no operation ever lowers the recorded stage
of any discussion. -/
theorem stage_transitions_forward_only :
    (∀ caller did now s d, mapGet s.discussions did = some d →
        d.stage = DiscussionStage.Ready →
        (∃ e, (advance_stage caller did now s).1 = Except.error e)
        ∧ (advance_stage caller did now s).2 = s)
    ∧ (∀ caller did now s e, (advance_stage caller did now s).1 = Except.error e →
        (advance_stage caller did now s).2 = s)
    ∧ (∀ caller did now s t, (advance_stage caller did now s).1 = Except.ok t →
        ∃ d, mapGet s.discussions did = some d ∧ stageSucc d.stage = some t ∧
          mapGet (advance_stage caller did now s).2.discussions did =
            some { d with stage := t, stage_changed_at := now })
    ∧ (∀ a b, stageSucc a ≠ some b →
        ∃ e, validate_stage_transition a b = Except.error e)
    ∧ (∀ s, keysBelow s.discussions s.next_discussion_id →
        (∀ caller args now, stageMonotone s (create_discussion caller args now s).2)
        ∧ (∀ caller args now, stageMonotone s (add_comment caller args now s).2)
        ∧ (∀ caller cid now, stageMonotone s (retract_comment caller cid now s).2)
        ∧ (∀ caller did now, stageMonotone s (advance_stage caller did now s).2)
        ∧ (∀ caller did invitee now,
            stageMonotone s (invite_contributor caller did invitee now s).2)
        ∧ (∀ caller did accept now,
            stageMonotone s (respond_to_invite caller did accept now s).2)
        ∧ (∀ caller did now, stageMonotone s (archive_discussion caller did now s).2)) := by
  refine ⟨?_, ?_, ?_, ?_, ?_⟩
  · intro caller did now s d hd hstage
    obtain ⟨e, he⟩ := advance_stage_ready_errors caller did now s d hd hstage
    exact ⟨⟨e, he⟩, frame_of_or _ s (advance_stage_frame_or caller did now s) e he⟩
  · intro caller did now s e he
    exact frame_of_or _ s (advance_stage_frame_or caller did now s) e he
  · intro caller did now s t hok
    rcases advance_stage_ok_shape caller did now s t hok with ⟨d, hd, hsucc, hdisc⟩
    refine ⟨d, hd, hsucc, ?_⟩
    rw [hdisc, mapGet_mapUpdate_self, hd]
    rfl
  · intro a b hne
    cases a <;> cases b <;> first | exact absurd rfl hne | exact ⟨_, rfl⟩
  · intro s hkeys
    refine ⟨?_, ?_, ?_, ?_, ?_, ?_, ?_⟩
    · intro caller args now
      rcases create_discussion_discussions_shape caller args now s with h | ⟨d0, h⟩
      · exact stageMonotone_of_eq _ _ h
      · exact stageMonotone_insert_fresh _ _ hkeys d0 h
    · intro caller args now
      rcases add_comment_discussions_shape caller args now s with h | ⟨npc, h⟩
      · exact stageMonotone_of_eq _ _ h
      · refine stageMonotone_of_update _ _ _ _ (fun d => ?_) h
        rfl
    · intro caller cid now
      exact stageMonotone_of_eq _ _ (retract_comment_discussions_eq caller cid now s)
    · intro caller did now
      rcases advance_stage_discussions_shape caller did now s with
        h | ⟨d0, hd0, t, hsucc, h⟩
      · exact stageMonotone_of_eq _ _ h
      · intro did' d d' hd hd'
        rw [h] at hd'
        by_cases hk : did' = did
        · subst hk
          rw [mapGet_mapUpdate_self, hd] at hd'
          simp at hd'
          have hdd : d = d0 := (Option.some.inj (hd0.symm.trans hd)).symm
          subst hdd
          rw [← hd']
          cases hds : d.stage <;> rw [hds] at hsucc <;>
            simp only [stageSucc, Option.some.injEq] at hsucc
          · subst hsucc
            show stageRank DiscussionStage.Brainstorm ≤ stageRank DiscussionStage.Refining
            decide
          · subst hsucc
            show stageRank DiscussionStage.Refining ≤ stageRank DiscussionStage.Ready
            decide
          · cases hsucc
        · rw [mapGet_mapUpdate_ne _ _ _ _ hk, hd] at hd'
          cases hd'
          exact le_refl _
    · intro caller did invitee now
      exact stageMonotone_of_eq _ _ (invite_contributor_discussions_eq caller did invitee now s)
    · intro caller did accept now
      rcases respond_to_invite_discussions_shape caller did accept now s with h | h
      · exact stageMonotone_of_eq _ _ h
      · refine stageMonotone_of_update _ _ _ _ (fun d => ?_) h
        by_cases hc : caller ∈ d.contributors <;> simp [hc]
    · intro caller did now
      rcases archive_discussion_discussions_shape caller did now s with h | h
      · exact stageMonotone_of_eq _ _ h
      · refine stageMonotone_of_update _ _ _ _ (fun d => ?_) h
        rfl

/-- Witness for C1: advancing the example Ready-stage discussion errors and
leaves the store unchanged. -/
theorem stage_transitions_forward_only_witness :
    (∃ e, (advance_stage [7] 1 999 exReady).1 = Except.error e)
    ∧ (advance_stage [7] 1 999 exReady).2 = exReady :=
  stage_transitions_forward_only.1 [7] 1 999 exReady
    { id := 1, title := [97], description := [98],
      category := ProposalCategory.Operational, proposer := [7], contributors := [],
      stage := DiscussionStage.Ready, created_at := 100,
      stage_changed_at := exReadyTime, comment_count := 5, participant_count := 3,
      is_archived := false } (by decide) rfl

theorem check_quality_gates_refining (s : DiscussionState) (did : DiscussionId)
    (now : Nat) (d : Discussion) (hd : mapGet s.discussions did = some d)
    (hstage : d.stage = DiscussionStage.Refining) :
    (check_quality_gates s did now).all_met = true ↔
      (MIN_PARTICIPANTS ≤ get_participant_count s did
        ∧ MIN_SUBSTANTIVE_COMMENTS ≤ count_substantive_comments s did
        ∧ MIN_REFINING_DURATION_NS ≤ now - d.stage_changed_at) := by
  unfold check_quality_gates
  rw [hd]
  simp [hstage, and_assoc]

theorem advance_refining_reduction (caller : Principal) (did : DiscussionId)
    (now : Nat) (s : DiscussionState) (d : Discussion)
    (hd : mapGet s.discussions did = some d)
    (hstage : d.stage = DiscussionStage.Refining)
    (hauth : is_proposer_or_contributor s did caller = true)
    (harch : d.is_archived = false) :
    advance_stage caller did now s =
      (if (check_quality_gates s did now).all_met = true then
        (Except.ok DiscussionStage.Ready,
          { s with discussions :=
              (mapUpdate s.discussions did
                (fun x => { x with
                  stage := DiscussionStage.Ready
                  stage_changed_at := now })) })
      else
        (Except.error (qualityGateFailureMessage (check_quality_gates s did now)), s)) := by
  unfold advance_stage
  rw [hd]
  dsimp only
  rw [if_neg (not_not_intro hauth), harch]
  rw [if_neg (by simp : ¬ (false = true))]
  rw [hstage]
  dsimp only [validate_stage_transition]
  by_cases hgate : (check_quality_gates s did now).all_met = true
  · rw [if_neg (by simp [hgate]), if_pos hgate]
  · rw [if_pos ⟨rfl, rfl, hgate⟩, if_neg hgate]

/-- Claim C2: on a Refining-stage discussion, with an authorized caller and the
discussion not archived, `advance_stage` succeeds (returning Ready) iff all
three quality gates hold at `now` — participants ≥ 3, substantive comments ≥ 5,
and `now − stage_changed_at ≥ 48h` — in which case the stage becomes Ready and
`stage_changed_at` is set to `now`; otherwise it fails with the quality-gate
error listing the unmet criteria with current versus required values. -/
theorem advance_refining_iff_gates (caller : Principal) (did : DiscussionId)
    (now : Nat) (s : DiscussionState) (d : Discussion)
    (hd : mapGet s.discussions did = some d)
    (hstage : d.stage = DiscussionStage.Refining)
    (hauth : is_proposer_or_contributor s did caller = true)
    (harch : d.is_archived = false) :
    ((advance_stage caller did now s).1 = Except.ok DiscussionStage.Ready ↔
      (MIN_PARTICIPANTS ≤ get_participant_count s did
        ∧ MIN_SUBSTANTIVE_COMMENTS ≤ count_substantive_comments s did
        ∧ MIN_REFINING_DURATION_NS ≤ now - d.stage_changed_at))
    ∧ ((advance_stage caller did now s).1 = Except.ok DiscussionStage.Ready →
        mapGet (advance_stage caller did now s).2.discussions did =
          some { d with stage := DiscussionStage.Ready, stage_changed_at := now })
    ∧ (¬ (MIN_PARTICIPANTS ≤ get_participant_count s did
        ∧ MIN_SUBSTANTIVE_COMMENTS ≤ count_substantive_comments s did
        ∧ MIN_REFINING_DURATION_NS ≤ now - d.stage_changed_at) →
        (advance_stage caller did now s).1 =
          Except.error (qualityGateFailureMessage (check_quality_gates s did now))) := by
  have hred := advance_refining_reduction caller did now s d hd hstage hauth harch
  have hiff := check_quality_gates_refining s did now d hd hstage
  by_cases hgate : (check_quality_gates s did now).all_met = true
  · refine ⟨?_, ?_, ?_⟩
    · rw [hred, if_pos hgate]
      exact iff_of_true rfl (hiff.mp hgate)
    · intro _
      rw [hred, if_pos hgate]
      show mapGet (mapUpdate s.discussions did _) did = _
      rw [mapGet_mapUpdate_self, hd]
      rfl
    · intro hng
      exact absurd (hiff.mp hgate) hng
  · refine ⟨?_, ?_, ?_⟩
    · rw [hred, if_neg hgate]
      constructor
      · intro h
        exact absurd h (by simp)
      · intro hg
        exact absurd (hiff.mpr hg) hgate
    · intro h
      rw [hred, if_neg hgate] at h
      exact absurd h (by simp)
    · intro _
      rw [hred, if_neg hgate]

/-- Witness for C2: in the example Refining-stage store the advance succeeds
exactly 48 hours after the stage change and fails at 500 nanoseconds in. -/
theorem advance_refining_iff_gates_witness :
    (advance_stage [7] 1 exReadyTime exRefining).1 = Except.ok DiscussionStage.Ready
    ∧ ¬ ((advance_stage [7] 1 1500 exRefining).1 = Except.ok DiscussionStage.Ready) := by
  constructor
  · exact (advance_refining_iff_gates [7] 1 exReadyTime exRefining
      { id := 1, title := [97], description := [98],
        category := ProposalCategory.Operational, proposer := [7], contributors := [],
        stage := DiscussionStage.Refining, created_at := 100, stage_changed_at := 1000,
        comment_count := 5, participant_count := 3, is_archived := false }
      (by decide) rfl rfl rfl).1.mpr ⟨by decide, by decide, by decide⟩
  · intro h
    exact absurd ((advance_refining_iff_gates [7] 1 1500 exRefining
      { id := 1, title := [97], description := [98],
        category := ProposalCategory.Operational, proposer := [7], contributors := [],
        stage := DiscussionStage.Refining, created_at := 100, stage_changed_at := 1000,
        comment_count := 5, participant_count := 3, is_archived := false }
      (by decide) rfl rfl rfl).1.mp h) (by decide)

/-! ## Field-wise state shapes used for the participant-count invariant -/

theorem create_discussion_state_shape (caller : Principal) (args : CreateDiscussionArgs)
    (now : Nat) (s : DiscussionState) :
    (create_discussion caller args now s).2 = s ∨
    ((create_discussion caller args now s).2.discussions =
        mapInsert s.discussions s.next_discussion_id
          { id := s.next_discussion_id, title := args.title,
            description := args.description, category := args.category,
            proposer := caller, contributors := [],
            stage := DiscussionStage.Brainstorm, created_at := now,
            stage_changed_at := now, comment_count := 0, participant_count := 1,
            is_archived := false }
      ∧ (create_discussion caller args now s).2.discussion_participants =
          mapInsert s.discussion_participants s.next_discussion_id
            (setInsert caller (participantSet s s.next_discussion_id))
      ∧ (create_discussion caller args now s).2.next_discussion_id =
          s.next_discussion_id + 1) := by
  unfold create_discussion
  repeat' split
  all_goals first | (left; rfl) | (right; exact ⟨rfl, rfl, rfl⟩)

theorem retract_comment_fields (caller : Principal) (cid : CommentId) (now : Nat)
    (s : DiscussionState) :
    (retract_comment caller cid now s).2.discussions = s.discussions
    ∧ (retract_comment caller cid now s).2.discussion_participants =
        s.discussion_participants
    ∧ (retract_comment caller cid now s).2.next_discussion_id = s.next_discussion_id := by
  unfold retract_comment
  repeat' split
  all_goals exact ⟨rfl, rfl, rfl⟩

theorem invite_contributor_fields (caller : Principal) (did2 : DiscussionId)
    (invitee : Principal) (now : Nat) (s : DiscussionState) :
    (invite_contributor caller did2 invitee now s).2.discussions = s.discussions
    ∧ (invite_contributor caller did2 invitee now s).2.discussion_participants =
        s.discussion_participants
    ∧ (invite_contributor caller did2 invitee now s).2.next_discussion_id =
        s.next_discussion_id := by
  unfold invite_contributor
  repeat' split
  all_goals exact ⟨rfl, rfl, rfl⟩

theorem advance_stage_fields (caller : Principal) (did2 : DiscussionId) (now : Nat)
    (s : DiscussionState) :
    (advance_stage caller did2 now s).2.discussion_participants =
        s.discussion_participants
    ∧ (advance_stage caller did2 now s).2.next_discussion_id = s.next_discussion_id := by
  unfold advance_stage
  dsimp only
  repeat' split
  all_goals exact ⟨rfl, rfl⟩

theorem archive_discussion_fields (caller : Principal) (did2 : DiscussionId) (now : Nat)
    (s : DiscussionState) :
    (archive_discussion caller did2 now s).2.discussion_participants =
        s.discussion_participants
    ∧ (archive_discussion caller did2 now s).2.next_discussion_id =
        s.next_discussion_id := by
  unfold archive_discussion
  repeat' split
  all_goals exact ⟨rfl, rfl⟩

theorem respond_to_invite_fields (caller : Principal) (did2 : DiscussionId)
    (accept : Bool) (now : Nat) (s : DiscussionState) :
    (respond_to_invite caller did2 accept now s).2.discussion_participants =
        s.discussion_participants
    ∧ (respond_to_invite caller did2 accept now s).2.next_discussion_id =
        s.next_discussion_id := by
  unfold respond_to_invite
  repeat' split
  all_goals exact ⟨rfl, rfl⟩

theorem add_comment_ok_shape (caller : Principal) (args : AddCommentArgs) (now : Nat)
    (s : DiscussionState) (cid : CommentId)
    (hok : (add_comment caller args now s).1 = Except.ok cid) :
    (∃ d0, mapGet s.discussions args.discussion_id = some d0)
    ∧ (add_comment caller args now s).2.next_discussion_id = s.next_discussion_id
    ∧ ((args.author_type = AuthorType.Human
        ∧ (add_comment caller args now s).2.discussion_participants =
            mapInsert s.discussion_participants args.discussion_id
              (setInsert caller (participantSet s args.discussion_id))
        ∧ (add_comment caller args now s).2.discussions =
            mapUpdate s.discussions args.discussion_id
              (fun d => { d with
                comment_count := d.comment_count + 1
                participant_count :=
                  ((setInsert caller (participantSet s args.discussion_id)).length) }))
      ∨ (¬ args.author_type = AuthorType.Human
        ∧ (add_comment caller args now s).2.discussion_participants =
            s.discussion_participants
        ∧ (add_comment caller args now s).2.discussions =
            mapUpdate s.discussions args.discussion_id
              (fun d => { d with comment_count := d.comment_count + 1 }))) := by
  unfold add_comment at hok ⊢
  cases hv : validate_comment args with
  | error e =>
      rw [hv] at hok
      simp at hok
  | ok u =>
      cases u
      (try rw [hv] at hok)
      (try rw [hv])
      cases hdq : mapGet s.discussions args.discussion_id with
      | none =>
          rw [hdq] at hok
          simp at hok
      | some d0 =>
          (try rw [hdq] at hok)
          (try rw [hdq])
          dsimp only at hok ⊢
          by_cases harch : d0.is_archived = true
          case pos =>
            rw [if_pos harch] at hok
            simp at hok
          case neg =>
            rw [if_neg harch] at hok ⊢
            by_cases hcc : can_comment s args.discussion_id caller = true
            case neg =>
              rw [if_pos hcc] at hok
              simp at hok
            case pos =>
              rw [if_neg (not_not_intro hcc)] at hok ⊢
              by_cases hh : args.author_type = AuthorType.Human
              case pos =>
                simp only [if_pos hh]
                refine ⟨⟨d0, rfl⟩, ?_, Or.inl ⟨?_, ?_, ?_⟩⟩
                all_goals try trivial
                all_goals try rfl
                congr 1
                funext x
                simp [get_participant_count, mapGet_mapInsert_self, participantSet]
              case neg =>
                simp only [if_neg hh]
                refine ⟨⟨d0, rfl⟩, ?_, Or.inr ⟨?_, ?_, ?_⟩⟩
                all_goals try trivial
                all_goals try rfl

/-! ## Invariant-preservation combinators -/

theorem StoreInv_of_fields (s s' : DiscussionState)
    (h1 : s'.discussions = s.discussions)
    (h2 : s'.discussion_participants = s.discussion_participants)
    (h3 : s'.next_discussion_id = s.next_discussion_id)
    (hinv : StoreInv s) : StoreInv s' := by
  obtain ⟨hc, hk1, hk2⟩ := hinv
  refine ⟨?_, ?_, ?_⟩
  · intro did d hd
    rw [h1] at hd
    unfold participantSet
    rw [h2]
    exact hc did d hd
  · rw [h1, h3]
    exact hk1
  · rw [h2, h3]
    exact hk2

theorem pcount_eq_of_discussions_eq (s s' : DiscussionState)
    (h : s'.discussions = s.discussions) (did : DiscussionId) :
    pcount s' did = pcount s did := by
  unfold pcount
  rw [h]

theorem StoreInv_update_pc_preserving (s s' : DiscussionState) (k : DiscussionId)
    (f : Discussion → Discussion)
    (hf : ∀ x, (f x).participant_count = x.participant_count)
    (hdisc : s'.discussions = mapUpdate s.discussions k f)
    (hdp : s'.discussion_participants = s.discussion_participants)
    (hnext : s'.next_discussion_id = s.next_discussion_id)
    (hinv : StoreInv s) :
    StoreInv s' ∧ ∀ did, pcount s did ≤ pcount s' did := by
  obtain ⟨hc, hk1, hk2⟩ := hinv
  constructor
  · refine ⟨?_, ?_, ?_⟩
    · intro did d hd
      rw [hdisc] at hd
      unfold participantSet
      rw [hdp]
      by_cases he : did = k
      · subst he
        rw [mapGet_mapUpdate_self] at hd
        cases hg : mapGet s.discussions did with
        | none =>
            rw [hg] at hd
            cases hd
        | some d0 =>
            rw [hg] at hd
            simp at hd
            rw [← hd, hf]
            exact hc did d0 hg
      · rw [mapGet_mapUpdate_ne _ _ _ _ he] at hd
        exact hc did d hd
    · rw [hdisc, hnext]
      exact keysBelow_mapUpdate _ _ _ _ hk1
    · rw [hdp, hnext]
      exact hk2
  · intro did
    unfold pcount
    rw [hdisc]
    by_cases he : did = k
    · subst he
      rw [mapGet_mapUpdate_self]
      cases hg : mapGet s.discussions did with
      | none => simp
      | some d0 => simp [hf]
    · rw [mapGet_mapUpdate_ne _ _ _ _ he]

theorem StoreInv_create_preserved (caller : Principal) (args : CreateDiscussionArgs)
    (now : Nat) (s : DiscussionState) (hinv : StoreInv s) :
    StoreInv (create_discussion caller args now s).2
    ∧ ∀ did, pcount s did ≤ pcount (create_discussion caller args now s).2 did := by
  rcases create_discussion_state_shape caller args now s with h | ⟨h1, h2, h3⟩
  · rw [h]
    exact ⟨hinv, fun _ => le_refl _⟩
  · obtain ⟨hc, hk1, hk2⟩ := hinv
    have hnone : mapGet s.discussion_participants s.next_discussion_id = none :=
      keysBelow_get_top _ _ hk2
    have hnone' : mapGet s.discussions s.next_discussion_id = none :=
      keysBelow_get_top _ _ hk1
    constructor
    · refine ⟨?_, ?_, ?_⟩
      · intro did d hd
        rw [h1] at hd
        unfold participantSet
        rw [h2]
        by_cases he : did = s.next_discussion_id
        · subst he
          rw [mapGet_mapInsert_self] at hd
          simp at hd
          rw [← hd, mapGet_mapInsert_self]
          unfold participantSet
          rw [hnone]
          simp [setInsert]
        · rw [mapGet_mapInsert_ne _ _ _ _ he] at hd
          rw [mapGet_mapInsert_ne _ _ _ _ he]
          exact hc did d hd
      · rw [h1, h3]
        exact keysBelow_mapInsert _ _ _ _
          (keysBelow_weaken _ _ _ hk1 (Nat.le_succ _)) (Nat.lt_succ_self _)
      · rw [h2, h3]
        exact keysBelow_mapInsert _ _ _ _
          (keysBelow_weaken _ _ _ hk2 (Nat.le_succ _)) (Nat.lt_succ_self _)
    · intro did
      unfold pcount
      rw [h1]
      by_cases he : did = s.next_discussion_id
      · subst he
        rw [hnone']
        simp
      · rw [mapGet_mapInsert_ne _ _ _ _ he]

theorem StoreInv_human_comment_update (s s' : DiscussionState) (k : DiscussionId)
    (caller : Principal) (d0 : Discussion)
    (hd0 : mapGet s.discussions k = some d0)
    (hdp : s'.discussion_participants =
      mapInsert s.discussion_participants k (setInsert caller (participantSet s k)))
    (hdisc : s'.discussions = mapUpdate s.discussions k
      (fun d => { d with
        comment_count := d.comment_count + 1
        participant_count := ((setInsert caller (participantSet s k)).length) }))
    (hnext : s'.next_discussion_id = s.next_discussion_id)
    (hinv : StoreInv s) :
    StoreInv s' ∧ ∀ did, pcount s did ≤ pcount s' did := by
  obtain ⟨hc, hk1, hk2⟩ := hinv
  constructor
  · refine ⟨?_, ?_, ?_⟩
    · intro did d hd
      rw [hdisc] at hd
      unfold participantSet
      rw [hdp]
      by_cases he : did = k
      · subst he
        rw [mapGet_mapUpdate_self, hd0] at hd
        simp at hd
        rw [← hd, mapGet_mapInsert_self]
        rfl
      · rw [mapGet_mapUpdate_ne _ _ _ _ he] at hd
        rw [mapGet_mapInsert_ne _ _ _ _ he]
        exact hc did d hd
    · rw [hdisc, hnext]
      exact keysBelow_mapUpdate _ _ _ _ hk1
    · rw [hdp, hnext]
      exact keysBelow_mapInsert _ _ _ _ hk2 (keysBelow_get_lt _ _ _ _ hk1 hd0)
  · intro did
    unfold pcount
    rw [hdisc]
    by_cases he : did = k
    · subst he
      rw [mapGet_mapUpdate_self, hd0]
      simp only [Option.map_some', Option.getD_some]
      rw [hc _ _ hd0]
      exact setInsert_length_le _ _
    · rw [mapGet_mapUpdate_ne _ _ _ _ he]

theorem StoreInv_add_comment_preserved (caller : Principal) (args : AddCommentArgs)
    (now : Nat) (s : DiscussionState) (hinv : StoreInv s) :
    StoreInv (add_comment caller args now s).2
    ∧ ∀ did, pcount s did ≤ pcount (add_comment caller args now s).2 did := by
  rcases add_comment_frame_or caller args now s with hfr | ⟨cid, hok⟩
  · rw [hfr]
    exact ⟨hinv, fun _ => le_refl _⟩
  · obtain ⟨⟨d0, hd0⟩, hnext, hcase⟩ := add_comment_ok_shape caller args now s cid hok
    rcases hcase with ⟨_, hdp, hdisc⟩ | ⟨_, hdp, hdisc⟩
    · exact StoreInv_human_comment_update s _ args.discussion_id caller d0 hd0
        hdp hdisc hnext hinv
    · refine StoreInv_update_pc_preserving s _ args.discussion_id _
        (fun x => ?_) hdisc hdp hnext hinv
      rfl

/-- Claim C6: across every operation, a discussion's `participant_count` never
decreases (stated over all stores satisfying the reachable-store invariant
`StoreInv`, which every operation preserves); a successful Agent-kind
`add_comment` leaves the participant set and `participant_count` untouched
while incrementing only `comment_count`; a successful Human-kind `add_comment`
idempotently inserts the caller into the participant set and stores that set's
cardinality as `participant_count`. -/
theorem participant_count_monotone :
    (∀ s, StoreInv s →
      (∀ caller args now, StoreInv (create_discussion caller args now s).2
        ∧ ∀ did, pcount s did ≤ pcount (create_discussion caller args now s).2 did)
      ∧ (∀ caller args now, StoreInv (add_comment caller args now s).2
        ∧ ∀ did, pcount s did ≤ pcount (add_comment caller args now s).2 did)
      ∧ (∀ caller cid now, StoreInv (retract_comment caller cid now s).2
        ∧ ∀ did, pcount s did ≤ pcount (retract_comment caller cid now s).2 did)
      ∧ (∀ caller k now, StoreInv (advance_stage caller k now s).2
        ∧ ∀ did, pcount s did ≤ pcount (advance_stage caller k now s).2 did)
      ∧ (∀ caller k invitee now, StoreInv (invite_contributor caller k invitee now s).2
        ∧ ∀ did, pcount s did ≤ pcount (invite_contributor caller k invitee now s).2 did)
      ∧ (∀ caller k accept now, StoreInv (respond_to_invite caller k accept now s).2
        ∧ ∀ did, pcount s did ≤ pcount (respond_to_invite caller k accept now s).2 did)
      ∧ (∀ caller k now, StoreInv (archive_discussion caller k now s).2
        ∧ ∀ did, pcount s did ≤ pcount (archive_discussion caller k now s).2 did))
    ∧ (∀ caller args now s cid aid, args.author_type = AuthorType.Agent aid →
        (add_comment caller args now s).1 = Except.ok cid →
        (add_comment caller args now s).2.discussion_participants =
          s.discussion_participants
        ∧ ∀ d, mapGet s.discussions args.discussion_id = some d →
            mapGet (add_comment caller args now s).2.discussions args.discussion_id =
              some { d with comment_count := d.comment_count + 1 })
    ∧ (∀ caller args now s cid, args.author_type = AuthorType.Human →
        (add_comment caller args now s).1 = Except.ok cid →
        participantSet (add_comment caller args now s).2 args.discussion_id =
          setInsert caller (participantSet s args.discussion_id)
        ∧ ∀ d, mapGet s.discussions args.discussion_id = some d →
            mapGet (add_comment caller args now s).2.discussions args.discussion_id =
              some { d with
                comment_count := d.comment_count + 1
                participant_count :=
                  ((setInsert caller (participantSet s args.discussion_id)).length) }) := by
  refine ⟨?_, ?_, ?_⟩
  · intro s hinv
    refine ⟨?_, ?_, ?_, ?_, ?_, ?_, ?_⟩
    · intro caller args now
      exact StoreInv_create_preserved caller args now s hinv
    · intro caller args now
      exact StoreInv_add_comment_preserved caller args now s hinv
    · intro caller cid now
      obtain ⟨h1, h2, h3⟩ := retract_comment_fields caller cid now s
      exact ⟨StoreInv_of_fields _ _ h1 h2 h3 hinv,
        fun did => le_of_eq (pcount_eq_of_discussions_eq _ _ h1 did).symm⟩
    · intro caller k now
      obtain ⟨hdp, hnext⟩ := advance_stage_fields caller k now s
      rcases advance_stage_discussions_shape caller k now s with h | ⟨d0, hd0, t, hsucc, h⟩
      · exact ⟨StoreInv_of_fields _ _ h hdp hnext hinv,
          fun did => le_of_eq (pcount_eq_of_discussions_eq _ _ h did).symm⟩
      · refine StoreInv_update_pc_preserving s _ k _ (fun x => ?_) h hdp hnext hinv
        rfl
    · intro caller k invitee now
      obtain ⟨h1, h2, h3⟩ := invite_contributor_fields caller k invitee now s
      exact ⟨StoreInv_of_fields _ _ h1 h2 h3 hinv,
        fun did => le_of_eq (pcount_eq_of_discussions_eq _ _ h1 did).symm⟩
    · intro caller k accept now
      obtain ⟨hdp, hnext⟩ := respond_to_invite_fields caller k accept now s
      rcases respond_to_invite_discussions_shape caller k accept now s with h | h
      · exact ⟨StoreInv_of_fields _ _ h hdp hnext hinv,
          fun did => le_of_eq (pcount_eq_of_discussions_eq _ _ h did).symm⟩
      · refine StoreInv_update_pc_preserving s _ k _ (fun x => ?_) h hdp hnext hinv
        by_cases hc2 : caller ∈ x.contributors <;> simp [hc2]
    · intro caller k now
      obtain ⟨hdp, hnext⟩ := archive_discussion_fields caller k now s
      rcases archive_discussion_discussions_shape caller k now s with h | h
      · exact ⟨StoreInv_of_fields _ _ h hdp hnext hinv,
          fun did => le_of_eq (pcount_eq_of_discussions_eq _ _ h did).symm⟩
      · refine StoreInv_update_pc_preserving s _ k _ (fun x => ?_) h hdp hnext hinv
        rfl
  · intro caller args now s cid aid ha hok
    have hna : ¬ args.author_type = AuthorType.Human := by
      rw [ha]
      simp
    obtain ⟨⟨d0, hd0⟩, hnext, hcase⟩ := add_comment_ok_shape caller args now s cid hok
    rcases hcase with ⟨hh, _, _⟩ | ⟨_, hdp, hdisc⟩
    · exact absurd hh hna
    · refine ⟨hdp, ?_⟩
      intro d hd
      rw [hdisc, mapGet_mapUpdate_self, hd]
      rfl
  · intro caller args now s cid hh hok
    obtain ⟨⟨d0, hd0⟩, hnext, hcase⟩ := add_comment_ok_shape caller args now s cid hok
    rcases hcase with ⟨_, hdp, hdisc⟩ | ⟨hna, _, _⟩
    · refine ⟨?_, ?_⟩
      · unfold participantSet
        rw [hdp, mapGet_mapInsert_self]
        rfl
      · intro d hd
        rw [hdisc, mapGet_mapUpdate_self, hd]
        rfl
    · exact absurd hh hna

/-- Witness for C6: the second human commenter `[8]` is inserted into the
participant set of discussion 1 and the stored count becomes that set's
cardinality, while an agent comment leaves the participant table unchanged. -/
theorem participant_count_monotone_witness :
    participantSet (add_comment [8] ⟨1, exC50, AuthorType.Human⟩ 102 exState1).2 1 =
      setInsert [8] (participantSet exState1 1)
    ∧ (add_comment [9] ⟨1, exC50, AuthorType.Agent [65]⟩ 103 exState1).2.discussion_participants
        = exState1.discussion_participants := by
  constructor
  · exact (participant_count_monotone.2.2 [8] ⟨1, exC50, AuthorType.Human⟩ 102
      exState1 2 rfl rfl).1
  · exact (participant_count_monotone.2.1 [9] ⟨1, exC50, AuthorType.Agent [65]⟩ 103
      exState1 2 [65] rfl rfl).1

/-- Pairwise agreement on exactly the comment fields fed to the hasher:
identifier, author identity, content, creation time, retraction flag. -/
def commentHashFields (c c' : Comment) : Prop :=
  c.id = c'.id ∧ c.author = c'.author ∧ c.content = c'.content
    ∧ c.created_at = c'.created_at ∧ c.is_retracted = c'.is_retracted

theorem commentHashBytes_congr (c c' : Comment) (h : commentHashFields c c') :
    commentHashBytes c = commentHashBytes c' := by
  obtain ⟨h1, h2, h3, h4, h5⟩ := h
  unfold commentHashBytes
  rw [h1, h2, h3, h4, h5]

/-- Claim C7: `generate_discussion_hash` is a pure deterministic function of
exactly the fixed-order stream of the discussion's identifier, title,
description, category tag and proposer bytes followed, per comment in ledger
order (including retracted ones), by identifier, author, content, creation
time and a single retraction-flag byte: for every digest function, two inputs
agreeing on those fields produce the identical output even when stage,
comment_count, participant_count, retraction time, author kind or the
comment's discussion_id differ — no other field is an input. -/
theorem discussion_hash_deterministic (digest : List Nat → String)
    (d d' : Discussion) (cs cs' : List Comment)
    (hid : d.id = d'.id) (ht : d.title = d'.title)
    (hde : d.description = d'.description) (hc : d.category = d'.category)
    (hp : d.proposer = d'.proposer)
    (hcs : List.Forall₂ commentHashFields cs cs') :
    generate_discussion_hash digest d cs = generate_discussion_hash digest d' cs' := by
  have hflat : ∀ (xs ys : List Comment), List.Forall₂ commentHashFields xs ys →
      xs.flatMap commentHashBytes = ys.flatMap commentHashBytes := by
    intro xs ys h
    induction h with
    | nil => rfl
    | cons h1 h2 ih =>
        simp only [List.flatMap_cons]
        rw [commentHashBytes_congr _ _ h1, ih]
  unfold generate_discussion_hash discussionHashInput
  rw [hid, ht, hde, hc, hp, hflat cs cs' hcs]

/-- A concrete digest stand-in used by the witness. -/
def exDigest : List Nat → String := fun l => toString l.length

/-- Witness for C7: two discussion/comment-list pairs that differ in stage,
contributors, timestamps, comment_count, participant_count, archived flag,
comment author kind, retraction time and the comment's discussion_id — but
agree on every hashed field — produce the identical digest. -/
theorem discussion_hash_deterministic_witness :
    generate_discussion_hash exDigest
      { id := 1, title := [97], description := [98],
        category := ProposalCategory.Treasury, proposer := [7], contributors := [],
        stage := DiscussionStage.Brainstorm, created_at := 0, stage_changed_at := 0,
        comment_count := 0, participant_count := 1, is_archived := false }
      [{ id := 1, discussion_id := 1, author := [7], content := [99],
         author_type := AuthorType.Human, created_at := 5, is_retracted := false,
         retracted_at := none }]
    = generate_discussion_hash exDigest
      { id := 1, title := [97], description := [98],
        category := ProposalCategory.Treasury, proposer := [7], contributors := [[9]],
        stage := DiscussionStage.Ready, created_at := 77, stage_changed_at := 88,
        comment_count := 42, participant_count := 9, is_archived := true }
      [{ id := 1, discussion_id := 3, author := [7], content := [99],
         author_type := AuthorType.Agent [1], created_at := 5, is_retracted := false,
         retracted_at := some 9 }] := by
  refine discussion_hash_deterministic exDigest _ _ _ _ rfl rfl rfl rfl rfl ?_
  exact List.Forall₂.cons ⟨rfl, rfl, rfl, rfl, rfl⟩ List.Forall₂.nil

end FounderyDiscussion
